import Mathlib

/-!
Shallow embedding of `lcoe.py`: the data pipeline that filters,
recategorizes, imputes and aggregates levelized-cost-of-electricity
(LCOE) observations before plotting.

Rows of the CSV are modelled as `Row`; the pandas dataframe becomes a
`List Row`; columnwise `df.apply(..., axis=1)` operations become maps
over that list; numeric values are rationals.  A value `≤ 0` in a
numeric column encodes a missing entry, per the source convention.
-/

/-- One observation: the columns "Category", "Type", "LCOE",
"LCOE Low", "LCOE High" of the CSV ("Type" is rendered `type` since
`Type` is reserved in Lean). -/
@[ext]
structure Row where
  Category : String
  type : String
  LCOE : ℚ
  LCOE_Low : ℚ
  LCOE_High : ℚ
  deriving DecidableEq

instance : Inhabited Row := ⟨⟨"", "", 0, 0, 0⟩⟩

/-- Line 26: the fixed exclusion set of Type strings. -/
def skipped_types : List String :=
  ["Depreciated Coal", "20-30% CCS", "90+% CCS", "IGCC with CCS",
   "Supercritical with CCS", "Combustion Turbine", "Gas Peaking",
   "Natural Gas CCS", "Diesel Generator", "Biomass Microgrid",
   "Incineration with CCS", "Depreciated Nuclear", "Advanced Nuclear",
   "Small Modular Reactor", "Generation IV", "Sodium-Cooled Fast Reactor",
   "High Temperature Reactor", "Fusion", "Refurbishments", "Organic PV",
   "Solar Updraft Tower", "Space-Based Solar", "Distributed Solar - Small",
   "Distributed Solar - Large", "Community Solar", "High Altitude",
   "Wind Microgrid", "Enhanced Geothermal System", "Hydrothermal Vents",
   "Fuel Cell", "Solid Oxide Fuel Cells", "Molten Carbonate Fuel Cells"]

/-- Line 27: `df_lcoe = df_lcoe[~df_lcoe["Type"].isin(skipped_types)]`. -/
def filter_skipped (rows : List Row) : List Row :=
  rows.filter (fun r => !(skipped_types.contains r.type))

/-- Lines 33–57: the fixed Type → Category remapping, as an association
list (the Python dict has pairwise-distinct keys). -/
def category_changes : List (String × String) :=
  [("Photovoltaics", "Solar PV"),
   ("Crystalline PV", "Solar PV"),
   ("Thin Film PV", "Solar PV"),
   ("Perovskite", "Solar PV"),
   ("Organic PV", "Solar PV"),
   ("PV Fixed", "Solar PV"),
   ("PV 1-Axis Tracking", "Solar PV"),
   ("PV 2-Axis Tracking", "Solar PV"),
   ("Solar Thermal", "Solar,\nNon-PV"),
   ("Solar Thermal without Storage", "Solar,\nNon-PV"),
   ("Solar Thermal with Storage", "Solar,\nNon-PV"),
   ("Concentrated PV", "Solar,\nNon-PV"),
   ("Onshore Wind", "Onshore\nWind"),
   ("Offshore Wind", "Offshore\nWind"),
   ("Deep Offshore", "Offshore\nWind"),
   ("Floating Offshore", "Offshore\nWind"),
   ("Offshore Vertical Axis", "Offshore\nWind"),
   ("MHK", "Ocean"),
   ("Tidal", "Ocean"),
   ("Wave", "Ocean"),
   ("OTEC", "Ocean"),
   ("Osmotic", "Ocean"),
   ("Oil Power Plant", "Oil")]

/-- Lines 60–64: `rename_category(row)`; dict membership plus indexing
becomes an association-list lookup. -/
def rename_category (row : Row) : String :=
  match category_changes.lookup row.type with
  | some c => c
  | none => row.Category

/-- Line 65: `df_lcoe["Category"] = df_lcoe.apply(rename_category, axis=1)`. -/
def apply_rename (rows : List Row) : List Row :=
  rows.map (fun r => { r with Category := rename_category r })

/-- One step of the order-preserving "unique": append the key if unseen. -/
def insert_key (acc : List String) (c : String) : List String :=
  if c ∈ acc then acc else acc ++ [c]

/-- Pandas `Series.unique()`: distinct values in order of first appearance. -/
def unique_keys (l : List String) : List String := l.foldl insert_key []

/-- Line 74: `interpolate_lcoe(row)`. -/
def interpolate_lcoe (row : Row) : ℚ :=
  if row.LCOE > 0 then row.LCOE else (row.LCOE_Low + row.LCOE_High) / 2

/-- Line 78: `interpolate_lcoe_low(row)`. -/
def interpolate_lcoe_low (row : Row) : ℚ :=
  if row.LCOE_Low > 0 then row.LCOE_Low else row.LCOE

/-- Line 82: `interpolate_lcoe_high(row)`. -/
def interpolate_lcoe_high (row : Row) : ℚ :=
  if row.LCOE_High > 0 then row.LCOE_High else row.LCOE

/-- Line 87: `df_lcoe["LCOE"] = df_lcoe.apply(interpolate_lcoe, axis=1)`. -/
def apply_lcoe (rows : List Row) : List Row :=
  rows.map (fun r => { r with LCOE := interpolate_lcoe r })

/-- Line 88: the LCOE Low column update, reading the updated LCOE column. -/
def apply_lcoe_low (rows : List Row) : List Row :=
  rows.map (fun r => { r with LCOE_Low := interpolate_lcoe_low r })

/-- Line 89: the LCOE High column update, reading the updated columns. -/
def apply_lcoe_high (rows : List Row) : List Row :=
  rows.map (fun r => { r with LCOE_High := interpolate_lcoe_high r })

/-- Lines 87–89 in sequence: each pass reads the already-updated columns. -/
def impute (rows : List Row) : List Row :=
  apply_lcoe_high (apply_lcoe_low (apply_lcoe rows))

/-- The three imputation passes collapsed to a single row transform
(each pandas pass is rowwise, so the passes commute with `List.map`). -/
def impute_row (r : Row) : Row :=
  let r1 : Row := { r with LCOE := interpolate_lcoe r }
  let r2 : Row := { r1 with LCOE_Low := interpolate_lcoe_low r1 }
  { r2 with LCOE_High := interpolate_lcoe_high r2 }

/-- The dataframe after the filter at line 27. -/
def df_filtered (rows : List Row) : List Row := filter_skipped rows

/-- The dataframe after the recategorization at line 65. -/
def df_recat (rows : List Row) : List Row := apply_rename (df_filtered rows)

/-- Line 68: `lcoe_keys = df_lcoe["Category"].unique()` (computed before
imputation). -/
def lcoe_keys (rows : List Row) : List String :=
  unique_keys ((df_recat rows).map Row.Category)

/-- The dataframe after the three imputation passes at lines 87–89. -/
def df_final (rows : List Row) : List Row := impute (df_recat rows)

/-- Lines 92–97: `get_lcoe_by_category(category)`: the rows of the
category, their LCOE Low column, then LCOE, then LCOE High, concatenated. -/
def get_lcoe_by_category (rows : List Row) (category : String) : List ℚ :=
  let df_cat := rows.filter (fun r => r.Category == category)
  (df_cat.map Row.LCOE_Low) ++ (df_cat.map Row.LCOE) ++ (df_cat.map Row.LCOE_High)

/-- Line 98: the aggregated array for each key, over the imputed data. -/
def lcoe_values (rows : List Row) : List (List ℚ) :=
  (lcoe_keys rows).map (fun k => get_lcoe_by_category (df_final rows) k)

/-- Line 102's sort key `-sum(x[1]/len(x[1]))`: numpy divides elementwise,
then Python sums. -/
def sort_key (v : List ℚ) : ℚ :=
  -((v.map (fun x => x / (v.length : ℚ))).sum)

/-- Lines 101–102: pair each key with its array and sort ascending by
`sort_key` (Python `sorted` orders by ascending key). -/
def keyed_lcoe_values (rows : List Row) : List (String × List ℚ) :=
  (List.zip (lcoe_keys rows) (lcoe_values rows)).mergeSort
    (fun a b => decide (sort_key a.2 ≤ sort_key b.2))

/-- Line 150: `mean_value = sum(lcoe_values[i])/len(lcoe_values[i])`. -/
def mean_value (v : List ℚ) : ℚ := v.sum / (v.length : ℚ)

/-- A well-formed input row: the point estimate is present, or both
bounds are; and whichever of the three values are present are ordered
low ≤ point ≤ high.  (Presence is `> 0`.) -/
def valid_row (r : Row) : Prop :=
  (0 < r.LCOE ∨ (0 < r.LCOE_Low ∧ 0 < r.LCOE_High)) ∧
  (0 < r.LCOE_Low → 0 < r.LCOE → r.LCOE_Low ≤ r.LCOE) ∧
  (0 < r.LCOE → 0 < r.LCOE_High → r.LCOE ≤ r.LCOE_High) ∧
  (0 < r.LCOE_Low → 0 < r.LCOE_High → r.LCOE_Low ≤ r.LCOE_High)

instance (r : Row) : Decidable (valid_row r) := by
  unfold valid_row; infer_instance

/-- C2: the spec's two worked imputation examples: a missing point with
bounds 4 and 10 is imputed to their midpoint 7, and a lone point 5 is
copied into both missing bounds. -/
theorem C2_imputation_examples :
    impute [⟨"Solar", "Solar", 0, 4, 10⟩] = [⟨"Solar", "Solar", 7, 4, 10⟩] ∧
    impute [⟨"Coal", "Coal", 5, 0, 0⟩] = [⟨"Coal", "Coal", 5, 5, 5⟩] := by
  constructor <;>
    norm_num [impute, apply_lcoe, apply_lcoe_low, apply_lcoe_high,
      interpolate_lcoe, interpolate_lcoe_low, interpolate_lcoe_high]

/-- The three columnwise imputation passes amount to mapping the single
row transform `impute_row` over the dataframe. -/
theorem impute_eq_map (rows : List Row) : impute rows = rows.map impute_row := by
  simp only [impute, apply_lcoe, apply_lcoe_low, apply_lcoe_high, List.map_map]
  exact List.map_congr_left (fun r _ => rfl)

theorem impute_row_Category (r : Row) : (impute_row r).Category = r.Category := rfl

theorem impute_row_type (r : Row) : (impute_row r).type = r.type := rfl

/-- On a well-formed row the imputation passes produce three present
values in the order low ≤ point ≤ high. -/
theorem impute_row_valid (r : Row) (h : valid_row r) :
    (0 < (impute_row r).LCOE ∧ 0 < (impute_row r).LCOE_Low ∧
      0 < (impute_row r).LCOE_High) ∧
    (impute_row r).LCOE_Low ≤ (impute_row r).LCOE ∧
      (impute_row r).LCOE ≤ (impute_row r).LCOE_High := by
  obtain ⟨hp, h1, h2, h3⟩ := h
  by_cases hL : r.LCOE > 0 <;> by_cases hlo : r.LCOE_Low > 0 <;>
    by_cases hhi : r.LCOE_High > 0 <;>
    (try have e1 : r.LCOE_Low ≤ r.LCOE := h1 hlo hL
     try have e2 : r.LCOE ≤ r.LCOE_High := h2 hL hhi
     try have e3 : r.LCOE_Low ≤ r.LCOE_High := h3 hlo hhi
     rcases hp with hp | ⟨hp1, hp2⟩ <;>
       refine ⟨⟨?_, ?_, ?_⟩, ?_, ?_⟩ <;>
       (simp only [impute_row, interpolate_lcoe, interpolate_lcoe_low,
          interpolate_lcoe_high]
        split_ifs <;> linarith))

/-- C1 (amended): for every row surviving the filter whose original
values are well-formed — the point estimate is present, or both bounds
are, and whichever values are present are ordered low ≤ point ≤ high —
after the three imputation passes none of LCOE, LCOE Low, LCOE High is
missing (each is > 0) and LCOE Low ≤ LCOE ≤ LCOE High. -/
theorem C1_imputed_rows_present_and_ordered (rows : List Row)
    (h : ∀ r ∈ df_filtered rows, valid_row r) :
    ∀ r ∈ df_final rows,
      (0 < r.LCOE ∧ 0 < r.LCOE_Low ∧ 0 < r.LCOE_High) ∧
      r.LCOE_Low ≤ r.LCOE ∧ r.LCOE ≤ r.LCOE_High := by
  intro r hr
  rw [df_final, impute_eq_map] at hr
  obtain ⟨r1, hr1, rfl⟩ := List.mem_map.1 hr
  rw [df_recat, apply_rename] at hr1
  obtain ⟨r0, hr0, rfl⟩ := List.mem_map.1 hr1
  exact impute_row_valid _ (h r0 hr0)

/-- C1 as stated is false: the all-missing row (LCOE = LCOE Low =
LCOE High = 0) survives the filter but is still all-missing after the
three imputation passes. -/
theorem C1_counterexample :
    ¬ (∀ r ∈ df_final [⟨"Coal", "Coal", 0, 0, 0⟩],
        (0 < r.LCOE ∧ 0 < r.LCOE_Low ∧ 0 < r.LCOE_High) ∧
        ((r.LCOE_Low ≠ r.LCOE ∧ r.LCOE ≠ r.LCOE_High) →
          r.LCOE_Low ≤ r.LCOE ∧ r.LCOE ≤ r.LCOE_High)) := by
  intro hall
  have h1 : df_recat [(⟨"Coal", "Coal", 0, 0, 0⟩ : Row)] =
      [⟨"Coal", "Coal", 0, 0, 0⟩] := by decide
  have h2 : impute [(⟨"Coal", "Coal", 0, 0, 0⟩ : Row)] =
      [⟨"Coal", "Coal", 0, 0, 0⟩] := by
    norm_num [impute, apply_lcoe, apply_lcoe_low, apply_lcoe_high,
      interpolate_lcoe, interpolate_lcoe_low, interpolate_lcoe_high]
  have hdf : df_final [(⟨"Coal", "Coal", 0, 0, 0⟩ : Row)] =
      [⟨"Coal", "Coal", 0, 0, 0⟩] := by
    rw [df_final, h1, h2]
  have hmem : (⟨"Coal", "Coal", 0, 0, 0⟩ : Row) ∈
      df_final [⟨"Coal", "Coal", 0, 0, 0⟩] := by
    rw [hdf]; exact List.mem_singleton.2 rfl
  exact absurd (hall _ hmem).1.1 (by norm_num)

theorem C1_witness :
    (∀ r ∈ df_filtered
        [⟨"Solar", "Photovoltaics", 0, 4, 10⟩, ⟨"Coal", "Coal", 5, 0, 0⟩,
         ⟨"Nuclear", "Fusion", 0, 0, 0⟩], valid_row r) ∧
    (∀ r ∈ df_final
        [⟨"Solar", "Photovoltaics", 0, 4, 10⟩, ⟨"Coal", "Coal", 5, 0, 0⟩,
         ⟨"Nuclear", "Fusion", 0, 0, 0⟩],
      (0 < r.LCOE ∧ 0 < r.LCOE_Low ∧ 0 < r.LCOE_High) ∧
      r.LCOE_Low ≤ r.LCOE ∧ r.LCOE ≤ r.LCOE_High) :=
  ⟨by decide, C1_imputed_rows_present_and_ordered _ (by decide)⟩

/-- A second application of the row transform fixes nothing new on rows
whose three numeric fields are nonnegative. -/
theorem impute_row_idem (r : Row) (_h0 : 0 ≤ r.LCOE) (h1 : 0 ≤ r.LCOE_Low)
    (h2 : 0 ≤ r.LCOE_High) : impute_row (impute_row r) = impute_row r := by
  ext <;> (try rfl) <;>
    (simp only [impute_row, interpolate_lcoe, interpolate_lcoe_low,
       interpolate_lcoe_high]
     split_ifs <;> linarith)

/-- C3 (amended): re-running the three imputation passes changes nothing,
for data whose numeric fields are nonnegative (the spec's data model:
values are floats ≥ 0, missing encoded as ≤ 0). -/
theorem C3_imputation_idempotent (rows : List Row)
    (h : ∀ r ∈ rows, 0 ≤ r.LCOE ∧ 0 ≤ r.LCOE_Low ∧ 0 ≤ r.LCOE_High) :
    impute (impute rows) = impute rows := by
  rw [impute_eq_map, impute_eq_map, List.map_map]
  exact List.map_congr_left fun r hr =>
    impute_row_idem r (h r hr).1 (h r hr).2.1 (h r hr).2.2

/-- C3 as stated is false: on the row (LCOE, LCOE Low, LCOE High) =
(0, 4, −4) one imputation pass produces (0, 4, 0) and a second pass
moves it again, to (2, 4, 2). -/
theorem C3_counterexample :
    impute (impute [⟨"Coal", "Coal", 0, 4, -4⟩]) ≠
      impute [⟨"Coal", "Coal", 0, 4, -4⟩] := by
  norm_num [impute, apply_lcoe, apply_lcoe_low, apply_lcoe_high,
    interpolate_lcoe, interpolate_lcoe_low, interpolate_lcoe_high,
    Row.mk.injEq]

theorem C3_witness :
    (∀ r ∈ [(⟨"Coal", "Coal", 0, 4, 10⟩ : Row)],
        0 ≤ r.LCOE ∧ 0 ≤ r.LCOE_Low ∧ 0 ≤ r.LCOE_High) ∧
    impute (impute [(⟨"Coal", "Coal", 0, 4, 10⟩ : Row)]) =
      impute [(⟨"Coal", "Coal", 0, 4, 10⟩ : Row)] :=
  ⟨by decide, C3_imputation_idempotent _ (by decide)⟩

/-- C4: no row surviving the filter has a Type in `skipped_types`; every
row whose Type is in that set is absent from the filtered dataframe and
hence from every downstream stage, whose rows all carry non-skipped
Types. -/
theorem C4_filter_excludes_skipped (rows : List Row) :
    (∀ r ∈ df_filtered rows, r.type ∉ skipped_types) ∧
    (∀ r ∈ rows, r.type ∈ skipped_types → r ∉ df_filtered rows) ∧
    (∀ r ∈ df_final rows, r.type ∉ skipped_types) := by
  refine ⟨?_, ?_, ?_⟩
  · intro r hr
    rw [df_filtered, filter_skipped] at hr
    have hp := (List.mem_filter.1 hr).2
    simpa using hp
  · intro r _ hmem hcon
    rw [df_filtered, filter_skipped] at hcon
    have hp := (List.mem_filter.1 hcon).2
    simp [hmem] at hp
  · intro r hr
    rw [df_final, impute_eq_map] at hr
    obtain ⟨r1, hr1, rfl⟩ := List.mem_map.1 hr
    rw [df_recat, apply_rename] at hr1
    obtain ⟨r0, hr0, rfl⟩ := List.mem_map.1 hr1
    rw [df_filtered, filter_skipped] at hr0
    have hp := (List.mem_filter.1 hr0).2
    show r0.type ∉ skipped_types
    simpa using hp

theorem C4_witness :
    "Fusion" ∈ skipped_types ∧
    (⟨"Nuclear", "Fusion", 1, 1, 1⟩ : Row) ∉
      df_filtered [(⟨"Nuclear", "Fusion", 1, 1, 1⟩ : Row)] :=
  ⟨by decide,
   (C4_filter_excludes_skipped [(⟨"Nuclear", "Fusion", 1, 1, 1⟩ : Row)]).2.1
     _ (by decide) (by decide)⟩

/-- Association-list lookup finds the value of any mapped pair when the
keys are pairwise distinct. -/
theorem lookup_eq_of_mem_of_nodup {l : List (String × String)}
    (hnd : (l.map Prod.fst).Nodup) {k v : String} (h : (k, v) ∈ l) :
    l.lookup k = some v := by
  induction l with
  | nil => cases h
  | cons p t ih =>
    rcases p with ⟨a, b⟩
    simp only [List.map_cons, List.nodup_cons] at hnd
    rcases List.mem_cons.1 h with heq | hmem
    · cases heq
      simp [List.lookup_cons]
    · have hk : k ≠ a := by
        rintro rfl
        exact hnd.1 (List.mem_map.2 ⟨(k, v), hmem, rfl⟩)
      have hb : (k == a) = false := beq_eq_false_iff_ne.2 hk
      simp only [List.lookup_cons, hb]
      exact ih hnd.2 hmem

/-- Association-list lookup misses exactly the unmapped keys. -/
theorem lookup_eq_none_of_not_mem {l : List (String × String)} {k : String}
    (h : k ∉ l.map Prod.fst) : l.lookup k = none := by
  refine List.lookup_eq_none_iff.2 fun p hp => ?_
  have hk : k ≠ p.1 := fun e => h (List.mem_map.2 ⟨p, hp, e.symm⟩)
  exact bne_iff_ne.2 hk

/-- C5: `rename_category` is a pure row function: a row whose Type is a
key of `category_changes` gets the mapped value as its new Category, and
a row whose Type is not a key keeps its original Category. -/
theorem C5_rename_category_lookup (r : Row) :
    (∀ p ∈ category_changes, r.type = p.1 → rename_category r = p.2) ∧
    (r.type ∉ category_changes.map Prod.fst →
      rename_category r = r.Category) := by
  constructor
  · rintro ⟨a, b⟩ hp he
    have hnd : (category_changes.map Prod.fst).Nodup := by decide
    have hl : category_changes.lookup r.type = some b := by
      rw [he]; exact lookup_eq_of_mem_of_nodup hnd hp
    simp [rename_category, hl]
  · intro h
    have hl := lookup_eq_none_of_not_mem (l := category_changes) h
    simp [rename_category, hl]

theorem C5_witness :
    (("MHK", "Ocean") ∈ category_changes ∧
      rename_category ⟨"Sea", "MHK", 1, 2, 3⟩ = "Ocean") ∧
    ("Coal" ∉ category_changes.map Prod.fst ∧
      rename_category ⟨"Coal", "Coal", 1, 2, 3⟩ = "Coal") :=
  ⟨⟨by decide,
    (C5_rename_category_lookup ⟨"Sea", "MHK", 1, 2, 3⟩).1 ("MHK", "Ocean")
      (by decide) rfl⟩,
   ⟨by decide,
    (C5_rename_category_lookup ⟨"Coal", "Coal", 1, 2, 3⟩).2 (by decide)⟩⟩

/-- C9: the three imputation passes touch only the numeric columns: the
row count and the Category and Type columns are unchanged, rowwise and
in order. -/
theorem C9_imputation_frame (rows : List Row) :
    (impute rows).length = rows.length ∧
    (impute rows).map Row.Category = rows.map Row.Category ∧
    (impute rows).map Row.type = rows.map Row.type := by
  refine ⟨?_, ?_, ?_⟩ <;>
    simp only [impute_eq_map, List.length_map, List.map_map]
  · exact List.map_congr_left fun r _ => rfl
  · exact List.map_congr_left fun r _ => rfl

theorem mem_foldl_insert (l : List String) (acc : List String) (x : String) :
    x ∈ l.foldl insert_key acc ↔ x ∈ acc ∨ x ∈ l := by
  induction l generalizing acc with
  | nil => simp
  | cons c t ih =>
    simp only [List.foldl_cons, ih, insert_key]
    split_ifs with hc
    · constructor
      · rintro (h | h)
        · exact Or.inl h
        · exact Or.inr (List.mem_cons_of_mem _ h)
      · rintro (h | h)
        · exact Or.inl h
        · rcases List.mem_cons.1 h with rfl | h
          · exact Or.inl hc
          · exact Or.inr h
    · simp [List.mem_append, List.mem_cons, or_assoc]

theorem nodup_foldl_insert (l : List String) (acc : List String)
    (h : acc.Nodup) : (l.foldl insert_key acc).Nodup := by
  induction l generalizing acc with
  | nil => simpa
  | cons c t ih =>
    simp only [List.foldl_cons]
    apply ih
    rw [insert_key]
    split_ifs with hc
    · exact h
    · simp [List.nodup_append, h, hc, List.disjoint_singleton]

theorem unique_keys_nodup (l : List String) : (unique_keys l).Nodup :=
  nodup_foldl_insert l [] List.nodup_nil

theorem mem_unique_keys (l : List String) (x : String) :
    x ∈ unique_keys l ↔ x ∈ l := by
  simp [unique_keys, mem_foldl_insert]

/-- C10: every key of `lcoe_keys` labels a non-empty group, so each
aggregated array has at least 3 entries and the divisions by array
length in the ranking key and the mean annotation are never by zero. -/
theorem C10_groups_nonempty (rows : List Row) :
    ∀ k ∈ lcoe_keys rows,
      (get_lcoe_by_category (df_final rows) k).length ≠ 0 ∧
      3 ≤ (get_lcoe_by_category (df_final rows) k).length := by
  intro k hk
  rw [lcoe_keys, mem_unique_keys] at hk
  obtain ⟨r1, hr1, hcat⟩ := List.mem_map.1 hk
  have hmem : impute_row r1 ∈ df_final rows := by
    rw [df_final, impute_eq_map]
    exact List.mem_map.2 ⟨r1, hr1, rfl⟩
  have hfil : impute_row r1 ∈
      (df_final rows).filter (fun r => r.Category == k) := by
    refine List.mem_filter.2 ⟨hmem, ?_⟩
    simpa [impute_row_Category] using hcat
  have hlen : 1 ≤ ((df_final rows).filter (fun r => r.Category == k)).length :=
    List.length_pos.2 (List.ne_nil_of_mem hfil)
  constructor <;>
    simp only [get_lcoe_by_category, List.length_append, List.length_map] <;>
    omega

theorem C10_witness :
    "Coal" ∈ lcoe_keys [(⟨"Coal", "Coal", 1, 1, 1⟩ : Row)] ∧
    (get_lcoe_by_category (df_final [(⟨"Coal", "Coal", 1, 1, 1⟩ : Row)])
        "Coal").length ≠ 0 ∧
    3 ≤ (get_lcoe_by_category (df_final [(⟨"Coal", "Coal", 1, 1, 1⟩ : Row)])
        "Coal").length :=
  ⟨by decide, C10_groups_nonempty [(⟨"Coal", "Coal", 1, 1, 1⟩ : Row)]
    "Coal" (by decide)⟩

theorem sum_indicator (keys : List String) (hnd : keys.Nodup) (c : String)
    (hc : c ∈ keys) :
    (keys.map (fun k => if c = k then 1 else 0)).sum = 1 := by
  induction keys with
  | nil => cases hc
  | cons a t ih =>
    simp only [List.nodup_cons] at hnd
    rcases List.mem_cons.1 hc with rfl | hmem
    · simp only [List.map_cons, List.sum_cons, if_pos rfl]
      have hz : ∀ k ∈ t, (if c = k then 1 else 0) = 0 := by
        intro k hk
        rw [if_neg]
        rintro rfl
        exact hnd.1 hk
      rw [List.map_congr_left hz]
      simp
    · have hca : c ≠ a := by
        rintro rfl
        exact hnd.1 hmem
      simp only [List.map_cons, List.sum_cons, if_neg hca]
      rw [ih hnd.2 hmem]

/-- Filtering a list of rows by each key of a duplicate-free list that
covers all row categories partitions the list: the filtered lengths sum
to the full length. -/
theorem sum_filter_lengths (keys : List String) (hnd : keys.Nodup)
    (l : List Row) (hcov : ∀ r ∈ l, r.Category ∈ keys) :
    (keys.map (fun k => (l.filter (fun r => r.Category == k)).length)).sum
      = l.length := by
  induction l with
  | nil => simp
  | cons r t ih =>
    have hr : r.Category ∈ keys := hcov r (List.mem_cons_self r t)
    have ht : ∀ x ∈ t, x.Category ∈ keys :=
      fun x hx => hcov x (List.mem_cons_of_mem _ hx)
    have hsplit : ∀ k ∈ keys,
        ((r :: t).filter (fun x => x.Category == k)).length
          = (if r.Category = k then 1 else 0)
            + (t.filter (fun x => x.Category == k)).length := by
      intro k _
      by_cases h : r.Category = k <;> simp [List.filter_cons, h] <;> omega
    calc (keys.map fun k =>
            ((r :: t).filter (fun x => x.Category == k)).length).sum
        = (keys.map fun k => (if r.Category = k then 1 else 0)
            + (t.filter (fun x => x.Category == k)).length).sum := by
          rw [List.map_congr_left hsplit]
      _ = (keys.map fun k => if r.Category = k then 1 else 0).sum
            + (keys.map fun k =>
                (t.filter (fun x => x.Category == k)).length).sum :=
          List.sum_map_add
      _ = 1 + t.length := by rw [ih ht, sum_indicator keys hnd r.Category hr]
      _ = (r :: t).length := by simp [List.length_cons, Nat.add_comm]

/-- C6: each category's aggregated array has length exactly three times
that category's post-filter row count, and the group sizes over all of
`lcoe_keys` sum to three times the number of post-filter rows. -/
theorem C6_group_sizes (rows : List Row) :
    (∀ cat, (get_lcoe_by_category (df_final rows) cat).length
        = 3 * ((df_final rows).filter (fun r => r.Category == cat)).length) ∧
    ((lcoe_keys rows).map
        (fun k => (get_lcoe_by_category (df_final rows) k).length)).sum
      = 3 * (df_filtered rows).length := by
  have hone : ∀ (l : List Row) (cat : String),
      (get_lcoe_by_category l cat).length
        = 3 * (l.filter (fun r => r.Category == cat)).length := by
    intro l cat
    simp only [get_lcoe_by_category, List.length_append, List.length_map]
    omega
  refine ⟨hone _, ?_⟩
  have hnd : (lcoe_keys rows).Nodup := by
    rw [lcoe_keys]; exact unique_keys_nodup _
  have hcov : ∀ r ∈ df_final rows, r.Category ∈ lcoe_keys rows := by
    intro r hr
    rw [df_final, impute_eq_map] at hr
    obtain ⟨r1, hr1, rfl⟩ := List.mem_map.1 hr
    rw [lcoe_keys, mem_unique_keys]
    exact List.mem_map.2 ⟨r1, hr1, rfl⟩
  have hsum := sum_filter_lengths (lcoe_keys rows) hnd (df_final rows) hcov
  calc ((lcoe_keys rows).map
          fun k => (get_lcoe_by_category (df_final rows) k).length).sum
      = ((lcoe_keys rows).map
          fun k => 3 * ((df_final rows).filter
            (fun r => r.Category == k)).length).sum := by
        rw [List.map_congr_left fun k _ => hone (df_final rows) k]
    _ = 3 * ((lcoe_keys rows).map
          fun k => ((df_final rows).filter
            (fun r => r.Category == k)).length).sum :=
        List.sum_map_mul_left _ _ _
    _ = 3 * (df_final rows).length := by rw [hsum]
    _ = 3 * (df_filtered rows).length := by
        rw [df_final, impute_eq_map, List.length_map, df_recat, apply_rename,
          List.length_map]

/-- Positional reading of the aggregated array: entry `i` is the i-th
group row's LCOE Low, entry `n + i` its LCOE, entry `2n + i` its
LCOE High, where `n` is the group size. -/
theorem get_lcoe_positional (l : List Row) (cat : String) (i : ℕ)
    (hi : i < (l.filter (fun r => r.Category == cat)).length) :
    (get_lcoe_by_category l cat).getD i 0
        = ((l.filter (fun r => r.Category == cat)).getD i default).LCOE_Low ∧
    (get_lcoe_by_category l cat).getD
        ((l.filter (fun r => r.Category == cat)).length + i) 0
        = ((l.filter (fun r => r.Category == cat)).getD i default).LCOE ∧
    (get_lcoe_by_category l cat).getD
        (2 * (l.filter (fun r => r.Category == cat)).length + i) 0
        = ((l.filter (fun r => r.Category == cat)).getD i default).LCOE_High := by
  set g := l.filter (fun r => r.Category == cat) with hg
  have hga : get_lcoe_by_category l cat
      = g.map Row.LCOE_Low ++ g.map Row.LCOE ++ g.map Row.LCOE_High := rfl
  rw [hga]
  refine ⟨?_, ?_, ?_⟩
  · rw [List.getD_eq_getElem?_getD,
      List.getElem?_append_left
        (by simp only [List.length_append, List.length_map]; omega),
      List.getElem?_append_left (by simp only [List.length_map]; omega),
      List.getElem?_map, List.getElem?_eq_getElem hi,
      List.getD_eq_getElem _ _ hi]
    rfl
  · rw [List.getD_eq_getElem?_getD,
      List.getElem?_append_left
        (by simp only [List.length_append, List.length_map]; omega),
      List.getElem?_append_right (by simp only [List.length_map]; omega)]
    simp only [List.length_map]
    rw [Nat.add_sub_cancel_left, List.getElem?_map,
      List.getElem?_eq_getElem hi, List.getD_eq_getElem _ _ hi]
    rfl
  · rw [List.getD_eq_getElem?_getD,
      List.getElem?_append_right
        (by simp only [List.length_append, List.length_map]; omega)]
    simp only [List.length_append, List.length_map]
    have he : 2 * g.length + i - (g.length + g.length) = i := by omega
    rw [he, List.getElem?_map, List.getElem?_eq_getElem hi,
      List.getD_eq_getElem _ _ hi]
    rfl

/-- C7: each category's aggregated array is exactly the concatenation,
in order, of the group rows' imputed LCOE Low values, then their imputed
LCOE values, then their imputed LCOE High values. -/
theorem C7_array_layout (rows : List Row) (cat : String) :
    get_lcoe_by_category (df_final rows) cat
      = ((df_final rows).filter (fun r => r.Category == cat)).map Row.LCOE_Low
        ++ ((df_final rows).filter (fun r => r.Category == cat)).map Row.LCOE
        ++ ((df_final rows).filter
              (fun r => r.Category == cat)).map Row.LCOE_High ∧
    (∀ i, i < ((df_final rows).filter (fun r => r.Category == cat)).length →
      (get_lcoe_by_category (df_final rows) cat).getD i 0
        = (((df_final rows).filter
            (fun r => r.Category == cat)).getD i default).LCOE_Low ∧
      (get_lcoe_by_category (df_final rows) cat).getD
          (((df_final rows).filter (fun r => r.Category == cat)).length + i) 0
        = (((df_final rows).filter
            (fun r => r.Category == cat)).getD i default).LCOE ∧
      (get_lcoe_by_category (df_final rows) cat).getD
          (2 * ((df_final rows).filter
            (fun r => r.Category == cat)).length + i) 0
        = (((df_final rows).filter
            (fun r => r.Category == cat)).getD i default).LCOE_High) :=
  ⟨rfl, fun i hi => get_lcoe_positional (df_final rows) cat i hi⟩

theorem C7_witness :
    0 < ((df_final [(⟨"Coal", "Coal", 1, 2, 3⟩ : Row)]).filter
        (fun r => r.Category == "Coal")).length ∧
    ((get_lcoe_by_category (df_final [(⟨"Coal", "Coal", 1, 2, 3⟩ : Row)])
          "Coal").getD 0 0
        = (((df_final [(⟨"Coal", "Coal", 1, 2, 3⟩ : Row)]).filter
            (fun r => r.Category == "Coal")).getD 0 default).LCOE_Low ∧
      (get_lcoe_by_category (df_final [(⟨"Coal", "Coal", 1, 2, 3⟩ : Row)])
          "Coal").getD
          (((df_final [(⟨"Coal", "Coal", 1, 2, 3⟩ : Row)]).filter
            (fun r => r.Category == "Coal")).length + 0) 0
        = (((df_final [(⟨"Coal", "Coal", 1, 2, 3⟩ : Row)]).filter
            (fun r => r.Category == "Coal")).getD 0 default).LCOE ∧
      (get_lcoe_by_category (df_final [(⟨"Coal", "Coal", 1, 2, 3⟩ : Row)])
          "Coal").getD
          (2 * ((df_final [(⟨"Coal", "Coal", 1, 2, 3⟩ : Row)]).filter
            (fun r => r.Category == "Coal")).length + 0) 0
        = (((df_final [(⟨"Coal", "Coal", 1, 2, 3⟩ : Row)]).filter
            (fun r => r.Category == "Coal")).getD 0 default).LCOE_High) :=
  ⟨by decide,
   (C7_array_layout [(⟨"Coal", "Coal", 1, 2, 3⟩ : Row)] "Coal").2 0 (by decide)⟩

theorem sum_map_div (v : List ℚ) (c : ℚ) :
    (v.map (fun x => x / c)).sum = v.sum / c := by
  induction v with
  | nil => simp
  | cons a t ih => simp [ih, add_div]

/-- The sort key of line 102 is the negated mean of the array. -/
theorem sort_key_eq_neg_mean (v : List ℚ) : sort_key v = -(mean_value v) := by
  simp [sort_key, mean_value, sum_map_div]

/-- C8: after the ranking stage the categories appear in order of
non-increasing mean aggregated value: at every pair of adjacent
positions the later entry's mean is at most the earlier entry's. -/
theorem C8_ranked_by_descending_mean (rows : List Row) (i : ℕ)
    (h : i + 1 < (keyed_lcoe_values rows).length) :
    mean_value ((keyed_lcoe_values rows).getD (i + 1) ("", [])).2
      ≤ mean_value ((keyed_lcoe_values rows).getD i ("", [])).2 := by
  have htrans : ∀ a b c : String × List ℚ,
      decide (sort_key a.2 ≤ sort_key b.2) = true →
      decide (sort_key b.2 ≤ sort_key c.2) = true →
      decide (sort_key a.2 ≤ sort_key c.2) = true := by
    intro a b c hab hbc
    simp only [decide_eq_true_eq] at *
    exact le_trans hab hbc
  have htotal : ∀ a b : String × List ℚ,
      (decide (sort_key a.2 ≤ sort_key b.2)
        || decide (sort_key b.2 ≤ sort_key a.2)) = true := by
    intro a b
    simp only [Bool.or_eq_true, decide_eq_true_eq]
    exact le_total _ _
  have hpair : (keyed_lcoe_values rows).Pairwise
      (fun a b => decide (sort_key a.2 ≤ sort_key b.2) = true) := by
    rw [keyed_lcoe_values]
    exact List.sorted_mergeSort htrans htotal _
  have hij := List.pairwise_iff_getElem.1 hpair i (i + 1) (by omega) h
    (by omega)
  simp only [decide_eq_true_eq, sort_key_eq_neg_mean] at hij
  rw [List.getD_eq_getElem _ _ h,
    List.getD_eq_getElem _ _ (show i < (keyed_lcoe_values rows).length by omega)]
  linarith

theorem C8_witness :
    0 + 1 < (keyed_lcoe_values
        [(⟨"Coal", "Coal", 10, 10, 10⟩ : Row),
         ⟨"Hydro", "Hydro", 2, 2, 2⟩]).length ∧
    mean_value ((keyed_lcoe_values
        [(⟨"Coal", "Coal", 10, 10, 10⟩ : Row),
         ⟨"Hydro", "Hydro", 2, 2, 2⟩]).getD (0 + 1) ("", [])).2
      ≤ mean_value ((keyed_lcoe_values
        [(⟨"Coal", "Coal", 10, 10, 10⟩ : Row),
         ⟨"Hydro", "Hydro", 2, 2, 2⟩]).getD 0 ("", [])).2 := by
  have hlen : 0 + 1 < (keyed_lcoe_values
      [(⟨"Coal", "Coal", 10, 10, 10⟩ : Row),
       ⟨"Hydro", "Hydro", 2, 2, 2⟩]).length := by
    simp [keyed_lcoe_values, List.length_mergeSort, List.length_zip,
      lcoe_values, lcoe_keys, df_recat, df_filtered, filter_skipped,
      apply_rename, unique_keys, insert_key, skipped_types, rename_category,
      category_changes, List.lookup, List.foldl]
  exact ⟨hlen, C8_ranked_by_descending_mean
    [(⟨"Coal", "Coal", 10, 10, 10⟩ : Row), ⟨"Hydro", "Hydro", 2, 2, 2⟩]
    0 hlen⟩
